import Mathlib

/-!
Shallow embedding of the UNIX-domain-socket backend of Gramine's LibOS
(`LibOS/shim/src/net/unix.c`, with socket state from
`LibOS/shim/include/shim_handle.h`).

Byte buffers are modelled as `List Nat` (each element one byte); sizes and
lengths are `Nat`; C `int` return values are `Int` (errors are negative
errno values, exactly as in the source). The platform (PAL) layer is not
part of the repository excerpt, so PAL calls are passed in as explicit
oracle arguments (`Except PalError …`) describing the platform's answer;
the functions here faithfully reproduce what `unix.c` does with those
answers.
-/

namespace GramineUnix

/-- `AF_UNIX` (Linux x86-64). -/
def AF_UNIX : Nat := 1
/-- `SOCK_STREAM`. -/
def SOCK_STREAM : Nat := 1
/-- `SOCK_DGRAM`. -/
def SOCK_DGRAM : Nat := 2

/-- Linux errno values used by `unix.c` (returned negated). -/
def ENOENT : Int := 2
def ENOMEM : Int := 12
def EINVAL : Int := 22
def EMSGSIZE : Int := 90
def ENOPROTOOPT : Int := 92
def EPROTONOSUPPORT : Int := 93
def EOPNOTSUPP : Int := 95
def EAFNOSUPPORT : Int := 97
def EADDRINUSE : Int := 98
def ENOTCONN : Int := 107

/-- `offsetof(struct sockaddr_un, sun_path)`: the 2-byte `sun_family`
discriminator comes first. -/
def sunPathOffset : Nat := 2

/-- `sizeof(struct sockaddr_un)` = 2 + 108 on Linux. -/
def sockaddrUnSize : Nat := 110

/-- `sizeof(struct sockaddr_storage)` = 128 on Linux. -/
def storageSize : Nat := 128

/-- C `strnlen(s, n)`: number of bytes before the first null byte, reading at
most `n` bytes. -/
def strnlen (s : List Nat) (n : Nat) : Nat :=
  ((s.take n).takeWhile (fun b => b ≠ 0)).length

/-- The `sun_family` field read from the first two bytes of an address buffer
(little-endian, as on x86-64). -/
def sunFamily (addr : List Nat) : Nat :=
  addr.getD 0 0 + 256 * addr.getD 1 0

/-- `unaddr_to_sockname` from `unix.c`, up to the point where the selected
bytes are fed to SHA-256: clamps `addrlen` to `sizeof(struct sockaddr_un)`,
rejects lengths too short to hold the family plus one path byte, rejects a
non-`AF_UNIX` family, and selects the path bytes to hash — truncated at the
first null for a pathname socket (`path[0] != 0`), the whole remaining length
for an abstract socket. Returns the exact byte sequence passed to the digest
(the derived stream name is its hex-encoded SHA-256, a pure function of these
bytes; see `sockNameOf`). -/
def unaddr_to_sockname (addr : List Nat) (addrlen : Nat) : Except Int (List Nat) :=
  let addrlen := min addrlen sockaddrUnSize
  if addrlen < sunPathOffset + 1 then
    .error (-EINVAL)
  else if sunFamily addr ≠ AF_UNIX then
    .error (-EAFNOSUPPORT)
  else
    let path := (addr.drop sunPathOffset).take (addrlen - sunPathOffset)
    let pathlen := addrlen - sunPathOffset
    let pathlen := if path.headD 0 ≠ 0 then strnlen path pathlen else pathlen
    .ok (path.take pathlen)

/-- The derived platform stream name for an address, for an arbitrary
digest-plus-hex-encoding function: `unaddr_to_sockname` hex-encodes the
SHA-256 of the selected bytes, so the name is `digest` applied to the result.
-/
def sockNameOf (digest : List Nat → List Nat) (addr : List Nat) (addrlen : Nat) :
    Except Int (List Nat) :=
  (unaddr_to_sockname addr addrlen).map digest

/-- The `sun_path` window `unaddr_to_sockname` reads: the bytes after the
family discriminator, limited by the (clamped) address length. -/
def sunPathSlice (addr : List Nat) (addrlen : Nat) : List Nat :=
  (addr.drop sunPathOffset).take (min addrlen sockaddrUnSize - sunPathOffset)

/-- `fixup_sockaddr_un_path` from `unix.c`. `ss` is the full
`struct sockaddr_storage` buffer (`storageSize` bytes); `addrlen` the recorded
length. Abstract addresses (first path byte null) are returned unchanged; for
pathname addresses the path is truncated at its first null, everything after
it up to the end of the storage is zeroed (the `memset`), and the recorded
length becomes `offsetof(sun_path) + pathlen + 1`. -/
def fixup_sockaddr_un_path (ss : List Nat) (addrlen : Nat) : List Nat × Nat :=
  let path := ss.drop sunPathOffset
  if path.headD 0 = 0 then
    (ss, addrlen)
  else
    let pathlen := strnlen path (addrlen - sunPathOffset)
    (ss.take (sunPathOffset + pathlen) ++
       List.replicate (storageSize - sunPathOffset - pathlen) 0,
     sunPathOffset + pathlen + 1)

/-- The PAL error codes `unix.c` special-cases, plus representatives of the
remaining codes (`other0`, `other1` stand for arbitrary further PAL errors so
the fallthrough branch of each translation is exercised). -/
inductive PalError where
  | streamexist
  | connfailed
  | toolong
  | denied
  | interrupted
  | other0
  | other1
deriving DecidableEq, Repr

/-- Modelled from the spec: `pal_to_unix_errno` lives in the PAL headers, not
in this excerpt. Per the spec it is a fixed, total mapping from platform error
codes to (negative) POSIX error numbers, with unmapped codes falling through
to a generic translation rather than panicking. The concrete values below are
one such total table; the theorems only rely on totality and negativity. -/
def pal_to_unix_errno : PalError → Int
  | .streamexist => -17   -- EEXIST
  | .connfailed  => -32   -- EPIPE
  | .toolong     => -36   -- ENAMETOOLONG
  | .denied      => -13   -- EACCES
  | .interrupted => -4    -- EINTR
  | .other0      => -13   -- generic fallthrough
  | .other1      => -13   -- generic fallthrough

/-- `enum shim_sock_state` from `shim_handle.h`. -/
inductive SockState where
  | new
  | bound
  | connected
  | listening
deriving DecidableEq, Repr

/-- The part of `struct shim_handle`/`struct shim_sock_handle` the UNIX
backend reads or writes: socket state, the atomically accessed `pal_handle`
(`Option Nat`, `none` = `NULL`), the handle's `O_NONBLOCK` flag bit, the
immutable `(ops, domain, type, protocol)` tuple and the recorded local/remote
addresses (`sockaddr_storage` bytes plus length). -/
structure SockHandle where
  state : SockState
  pal_handle : Option Nat
  nonblocking : Bool
  opsTag : Nat
  domain : Nat
  typ : Nat
  protocol : Nat
  local_addr : List Nat
  local_addrlen : Nat
  remote_addr : List Nat
  remote_addrlen : Nat
deriving DecidableEq, Repr

/-- `create` from `unix.c`: rejects datagram sockets and nonzero protocols
with `-EPROTONOSUPPORT`, otherwise nulls `pal_handle`. -/
def create (h : SockHandle) : Except Int SockHandle :=
  if h.typ = SOCK_DGRAM then
    .error (-EPROTONOSUPPORT)
  else if h.protocol ≠ 0 then
    .error (-EPROTONOSUPPORT)
  else
    .ok { h with pal_handle := none }

/-- Result of `bind`/`connect`: the C return value, the handle as left by the
call, and whether `DkStreamOpen` was invoked at all. -/
structure OpResult where
  ret : Int
  handle : SockHandle
  palOpenInvoked : Bool
deriving DecidableEq, Repr

/-- `bind` from `unix.c`. `palOpen` is the platform's answer to the
`DkStreamOpen` on the derived `pipe.srv:` name: on `-PAL_ERROR_STREAMEXIST`
bind returns `-EADDRINUSE`, other PAL errors go through `pal_to_unix_errno`;
on success the PAL handle is stored, the caller's address is copied (clamped
to `sizeof(struct sockaddr_un)`) into `local_addr` and normalized with
`fixup_sockaddr_un_path`. -/
def bind (h : SockHandle) (addr : List Nat) (addrlen : Nat)
    (palOpen : Except PalError Nat) : OpResult :=
  match unaddr_to_sockname addr addrlen with
  | .error e => ⟨e, h, false⟩
  | .ok _ =>
    match palOpen with
    | .error e =>
      ⟨if e = .streamexist then -EADDRINUSE else pal_to_unix_errno e, h, true⟩
    | .ok p =>
      let l := min addrlen sockaddrUnSize
      let copied := addr.take l ++ h.local_addr.drop l
      let fixed := fixup_sockaddr_un_path copied l
      ⟨0, { h with pal_handle := some p,
                   local_addr := fixed.1, local_addrlen := fixed.2 }, true⟩

/-- `listen` from `unix.c`: a no-op that only rejects non-stream sockets. -/
def listen (h : SockHandle) (_backlog : Nat) : Int :=
  if h.typ ≠ SOCK_STREAM then -EOPNOTSUPP else 0

/-- `connect` from `unix.c`. Fails with `-EINVAL` from any state but
`SOCK_NEW` before doing anything else; then mirrors `bind` on the remote
address (`-PAL_ERROR_CONNFAILED` becomes `-ENOENT`), and, the socket not
being bound, records a family-only local address. -/
def connect (h : SockHandle) (addr : List Nat) (addrlen : Nat)
    (palOpen : Except PalError Nat) : OpResult :=
  if h.state ≠ SockState.new then
    ⟨-EINVAL, h, false⟩
  else
    match unaddr_to_sockname addr addrlen with
    | .error e => ⟨e, h, false⟩
    | .ok _ =>
      match palOpen with
      | .error e =>
        ⟨if e = .connfailed then -ENOENT else pal_to_unix_errno e, h, true⟩
      | .ok p =>
        let l := min addrlen sockaddrUnSize
        let copied := addr.take l ++ h.remote_addr.drop l
        let fixed := fixup_sockaddr_un_path copied l
        let h := { h with pal_handle := some p,
                          remote_addr := fixed.1, remote_addrlen := fixed.2 }
        let h :=
          if h.state ≠ SockState.bound then
            { h with local_addr := AF_UNIX % 256 :: AF_UNIX / 256 :: h.local_addr.drop 2,
                     local_addrlen := 2 }
          else h
        ⟨0, h, true⟩

/-- `disconnect` from `unix.c`: unsupported. -/
def disconnect (_h : SockHandle) : Int := -EINVAL

/-- Result of `accept`: the C return value, the child handle handed back via
`client_ptr` (if any), whether `put_handle` was called on a fully allocated
child (the lock-allocation-failure teardown), and whether `DkObjectClose` was
called on the accepted PAL handle (the `get_new_handle` failure teardown). -/
structure AcceptResult where
  ret : Int
  client : Option SockHandle
  releasedClient : Bool
  closedClientPal : Bool
deriving DecidableEq, Repr

/-- `accept` from `unix.c`. `palWait` is the platform's answer to
`DkStreamWaitForClient`; `allocOk` models `get_new_handle` succeeding,
`locksOk` models both `create_lock` calls succeeding. On full success the
child is connected, inherits `ops`/`domain`/`type`/`protocol`, gets
`O_NONBLOCK` from the caller's request, a copy of the parent's local address
(taken under the parent's socket lock in the source) and an `AF_UNIX`
family-only remote address of length `sizeof(ss_family)` = 2 (the rest of the
freshly allocated handle's storage is zero). -/
def accept (h : SockHandle) (is_nonblocking : Bool) (palWait : Except PalError Nat)
    (allocOk : Bool) (locksOk : Bool) : AcceptResult :=
  match palWait with
  | .error e => ⟨pal_to_unix_errno e, none, false, false⟩
  | .ok clientPal =>
    if !allocOk then
      ⟨-ENOMEM, none, false, true⟩
    else if !locksOk then
      ⟨-ENOMEM, none, true, false⟩
    else
      ⟨0, some
        { state := SockState.connected,
          pal_handle := some clientPal,
          nonblocking := is_nonblocking,
          opsTag := h.opsTag,
          domain := h.domain,
          typ := h.typ,
          protocol := h.protocol,
          local_addr := h.local_addr,
          local_addrlen := h.local_addrlen,
          remote_addr := AF_UNIX % 256 :: AF_UNIX / 256 :: List.replicate (storageSize - 2) 0,
          remote_addrlen := 2 }, false, false⟩

/-- `setsockopt` from `unix.c`: always `-ENOPROTOOPT`. -/
def setsockopt (_h : SockHandle) (_level _optname : Int) : Int := -ENOPROTOOPT

/-- `getsockopt` from `unix.c`: always `-ENOPROTOOPT`. -/
def getsockopt (_h : SockHandle) (_level _optname : Int) : Int := -ENOPROTOOPT

/-- Result of `send`: the C return value, `*size_out` (set only on success),
whether `DkStreamWrite` was invoked, and the exact byte sequence handed to
that single platform write. -/
structure SendResult where
  ret : Int
  size_out : Option Nat
  palInvoked : Bool
  sentBytes : List Nat
deriving DecidableEq, Repr

/-- `send` from `unix.c`. An `iovec` list is a list of byte buffers. The
`SOCK_DGRAM` branch is `BUG()` — an abort — modelled as `none` (it is
unreachable: `create` rejects datagram sockets). With no PAL handle yet,
`-ENOTCONN`. A single buffer is forwarded directly; several are coalesced
into one malloc'd buffer (`allocOk` models that malloc; failure is
`-ENOMEM`) by copying them in order. `palWrite` is the platform's answer to
the single `DkStreamWrite`: the count it accepted, or an error
(`-PAL_ERROR_TOOLONG` becomes `-EMSGSIZE`). -/
def send (h : SockHandle) (iovs : List (List Nat)) (allocOk : Bool)
    (palWrite : Except PalError Nat) : Option SendResult :=
  if h.typ = SOCK_DGRAM then
    none
  else
    match h.pal_handle with
    | none => some ⟨-ENOTCONN, none, false, []⟩
    | some _ =>
      if iovs.length = 1 then
        match palWrite with
        | .error e =>
          some ⟨if e = .toolong then -EMSGSIZE else pal_to_unix_errno e,
                none, true, iovs.headD []⟩
        | .ok written => some ⟨0, some written, true, iovs.headD []⟩
      else if allocOk then
        match palWrite with
        | .error e =>
          some ⟨if e = .toolong then -EMSGSIZE else pal_to_unix_errno e,
                none, true, iovs.flatten⟩
        | .ok written => some ⟨0, some written, true, iovs.flatten⟩
      else
        some ⟨-ENOMEM, none, false, []⟩

/-- The copy-back loop at the end of `recv`: distribute `data` (the bytes the
platform read produced) over the destination buffers in order, filling each
buffer before moving to the next; the loop stops once all of `data` is
copied, leaving later buffers — and the tail of a partially filled buffer —
with their previous contents. -/
def scatterIovs (iovs : List (List Nat)) (data : List Nat) : List (List Nat) :=
  match iovs with
  | [] => []
  | iov :: rest =>
    if data.isEmpty then
      iov :: rest
    else
      let t := min (data.length) iov.length
      (data.take t ++ iov.drop t) :: scatterIovs rest (data.drop t)

/-- Result of `recv`: the C return value, `*size_out` (set only on success),
whether `DkStreamRead` was invoked, and the destination buffers as left by
the call. -/
structure RecvResult where
  ret : Int
  size_out : Option Nat
  palInvoked : Bool
  iovsOut : List (List Nat)
deriving DecidableEq, Repr

/-- `recv` from `unix.c`. As in `send`, `SOCK_DGRAM` is `BUG()` (`none`) and
a null PAL handle is `-ENOTCONN`. A per-call nonblocking request
(`is_nonblocking`) is then rejected with `-EINVAL` unless the handle's own
flags carry `O_NONBLOCK`. A single destination buffer is read into directly;
several go through a malloc'd backing buffer (`allocOk`) and are scattered
back with the copy-back loop. `palRead` is the platform's answer to
`DkStreamRead`: the bytes it produced (at most the requested total), or an
error (translated generically). -/
def recv (h : SockHandle) (iovs : List (List Nat)) (is_nonblocking : Bool)
    (allocOk : Bool) (palRead : Except PalError (List Nat)) : Option RecvResult :=
  if h.typ = SOCK_DGRAM then
    none
  else
    match h.pal_handle with
    | none => some ⟨-ENOTCONN, none, false, iovs⟩
    | some _ =>
      if is_nonblocking && !h.nonblocking then
        some ⟨-EINVAL, none, false, iovs⟩
      else if iovs.length = 1 then
        match palRead with
        | .error e => some ⟨pal_to_unix_errno e, none, true, iovs⟩
        | .ok data =>
          some ⟨0, some data.length, true, [data ++ (iovs.headD []).drop data.length]⟩
      else if allocOk then
        match palRead with
        | .error e => some ⟨pal_to_unix_errno e, none, true, iovs⟩
        | .ok data => some ⟨0, some data.length, true, scatterIovs iovs data⟩
      else
        some ⟨-ENOMEM, none, false, iovs⟩

/-- One invocation of a backend operation, bundled with the platform's and
allocator's answers for that invocation. -/
inductive SockOp where
  | bindOp (addr : List Nat) (addrlen : Nat) (palOpen : Except PalError Nat)
  | listenOp (backlog : Nat)
  | acceptOp (nb : Bool) (palWait : Except PalError Nat) (allocOk locksOk : Bool)
  | connectOp (addr : List Nat) (addrlen : Nat) (palOpen : Except PalError Nat)
  | sendOp (iovs : List (List Nat)) (allocOk : Bool) (palWrite : Except PalError Nat)
  | recvOp (iovs : List (List Nat)) (nb : Bool) (allocOk : Bool)
      (palRead : Except PalError (List Nat))
deriving Repr

/-- Modelled from the spec: the syscall-emulation layer that dispatches into
the backend (`shim_socket.c`) is not part of this excerpt. Per the spec's
state machine (`NEW → BOUND → LISTENING` server path, `NEW → CONNECTED`
client path), it invokes `bind` only on a `NEW` socket and `listen` only on a
`BOUND`-or-`LISTENING` one, and advances the state after a successful
`bind`/`listen`/`connect`. This function is that dispatch, restricted to its
effect on the socket handle; `accept` (which touches only a fresh child
handle) and `send`/`recv` leave the handle itself unchanged. -/
def sysStep (h : SockHandle) (op : SockOp) : SockHandle :=
  match op with
  | .bindOp addr len palOpen =>
    if h.state = SockState.new then
      let r := bind h addr len palOpen
      if r.ret = 0 then { r.handle with state := SockState.bound } else r.handle
    else h
  | .listenOp backlog =>
    if h.state = SockState.bound ∨ h.state = SockState.listening then
      if listen h backlog = 0 then { h with state := SockState.listening } else h
    else h
  | .connectOp addr len palOpen =>
    let r := connect h addr len palOpen
    if r.ret = 0 then { r.handle with state := SockState.connected } else r.handle
  | .acceptOp _ _ _ _ => h
  | .sendOp _ _ _ => h
  | .recvOp _ _ _ _ => h

/-- Run a sequence of backend operations from a starting handle. -/
def runOps (h : SockHandle) : List SockOp → SockHandle
  | [] => h
  | op :: ops => runOps (sysStep h op) ops

/-- The invariant tying the spec's state machine to `pal_handle`: a socket
still in the `NEW` state has no platform stream yet. -/
def palInv (h : SockHandle) : Prop := h.state = SockState.new → h.pal_handle = none

instance (h : SockHandle) : Decidable (palInv h) := by
  unfold palInv; infer_instance

/-! ### Concrete handles used to instantiate the theorems -/

/-- A freshly created (`SOCK_NEW`) UNIX stream socket. -/
def freshHandle : SockHandle :=
  { state := SockState.new, pal_handle := none, nonblocking := false,
    opsTag := 0, domain := AF_UNIX, typ := SOCK_STREAM, protocol := 0,
    local_addr := List.replicate storageSize 0, local_addrlen := 2,
    remote_addr := List.replicate storageSize 0, remote_addrlen := 2 }

/-- A connected UNIX stream socket with a live PAL handle. -/
def connHandle : SockHandle :=
  { freshHandle with state := SockState.connected, pal_handle := some 7 }

/-- A bound UNIX stream socket (as after a successful `bind`). -/
def boundHandle : SockHandle :=
  { freshHandle with state := SockState.bound, pal_handle := some 3 }

/-- A sample `AF_UNIX` pathname address buffer: family bytes `[1, 0]`, path
`"ab"`, a null terminator, then trailing garbage. -/
def addrA : List Nat := [1, 0, 97, 98, 0, 55, 66]

/-- Same logical pathname as `addrA`, different garbage after the null. -/
def addrB : List Nat := [1, 0, 97, 98, 0, 9]

/-! ### Theorems -/

/-- **C10.** `unaddr_to_sockname` silently clamps an oversized `addrlen` to
`sizeof(struct sockaddr_un)`: the whole result (success or error, and hence
the derived stream name) is the same as with `addrlen` equal to
`sizeof(struct sockaddr_un)`. -/
theorem unaddr_clamps_oversized_addrlen (addr : List Nat) (addrlen : Nat)
    (hl : sockaddrUnSize < addrlen) :
    unaddr_to_sockname addr addrlen = unaddr_to_sockname addr sockaddrUnSize ∧
    ∀ digest, sockNameOf digest addr addrlen = sockNameOf digest addr sockaddrUnSize := by
  have hmin : min addrlen sockaddrUnSize = sockaddrUnSize := Nat.min_eq_right hl.le
  have hbase : unaddr_to_sockname addr addrlen = unaddr_to_sockname addr sockaddrUnSize := by
    unfold unaddr_to_sockname
    rw [hmin, Nat.min_self]
  exact ⟨hbase, fun digest => by unfold sockNameOf; rw [hbase]⟩

/-- Witness for C10 at a concrete oversized length. -/
theorem unaddr_clamps_oversized_addrlen_witness :
    sockaddrUnSize < 200 ∧
      unaddr_to_sockname addrA 200 = unaddr_to_sockname addrA sockaddrUnSize :=
  ⟨by decide, (unaddr_clamps_oversized_addrlen addrA 200 (by decide)).1⟩

/-- **C3.** `connect` on a socket whose state is `BOUND`, `CONNECTED` or
`LISTENING` returns `-EINVAL` and has no side effect: no `DkStreamOpen` is
invoked and the handle (in particular `pal_handle`, `local_addr`,
`remote_addr`) is returned unchanged. -/
theorem connect_non_new_einval (h : SockHandle) (addr : List Nat) (addrlen : Nat)
    (palOpen : Except PalError Nat)
    (hs : h.state = SockState.bound ∨ h.state = SockState.connected ∨
          h.state = SockState.listening) :
    connect h addr addrlen palOpen = ⟨-EINVAL, h, false⟩ := by
  have hne : h.state ≠ SockState.new := by
    rcases hs with h1 | h1 | h1 <;> rw [h1] <;> intro hcon <;> cases hcon
  unfold connect
  simp [hne]

/-- Witness for C3 on a concrete bound socket. -/
theorem connect_non_new_einval_witness :
    (boundHandle.state = SockState.bound ∨ boundHandle.state = SockState.connected ∨
      boundHandle.state = SockState.listening) ∧
    connect boundHandle addrA 7 (.ok 9) = ⟨-EINVAL, boundHandle, false⟩ :=
  ⟨Or.inl rfl, connect_non_new_einval boundHandle addrA 7 (.ok 9) (Or.inl rfl)⟩

/-- **C6.** A successful `accept` returns a `CONNECTED` child carrying the
parent's ops table, domain, type and protocol, the requested nonblocking
flag, a copy of the parent's recorded local address, and an `AF_UNIX`
family-only (zero-length-path) remote address of length 2; if lock creation
fails after the platform-level accept succeeded, the child handle is released
(`put_handle`) and `-ENOMEM` is returned. -/
theorem accept_child_shape (h : SockHandle) (nb : Bool) (cp : Nat) :
    accept h nb (.ok cp) true true =
      ⟨0, some
        { state := SockState.connected,
          pal_handle := some cp,
          nonblocking := nb,
          opsTag := h.opsTag,
          domain := h.domain,
          typ := h.typ,
          protocol := h.protocol,
          local_addr := h.local_addr,
          local_addrlen := h.local_addrlen,
          remote_addr := AF_UNIX % 256 :: AF_UNIX / 256 :: List.replicate (storageSize - 2) 0,
          remote_addrlen := 2 }, false, false⟩ ∧
    accept h nb (.ok cp) true false = ⟨-ENOMEM, none, true, false⟩ :=
  ⟨rfl, rfl⟩

/-- **C7.** On a connected stream handle whose own flags lack `O_NONBLOCK`, a
per-call nonblocking `recv` fails with `-EINVAL` without invoking
`DkStreamRead` and without touching the destination buffers; moreover (second
conjunct) a per-call nonblocking `recv` reaches the platform stream only if
the handle's own flags mark it nonblocking. -/
theorem recv_nonblocking_gate (h : SockHandle) (iovs : List (List Nat)) (allocOk : Bool)
    (palRead : Except PalError (List Nat)) (p : Nat)
    (ht : h.typ = SOCK_STREAM) (hp : h.pal_handle = some p) (hnb : h.nonblocking = false) :
    recv h iovs true allocOk palRead = some ⟨-EINVAL, none, false, iovs⟩ ∧
    ∀ (g : SockHandle) (r : RecvResult), g.nonblocking = false →
      recv g iovs true allocOk palRead = some r → r.palInvoked = false := by
  constructor
  · unfold recv
    rw [ht]
    simp [SOCK_STREAM, SOCK_DGRAM, hp, hnb]
  · intro g r hg hr
    unfold recv at hr
    by_cases hgt : g.typ = SOCK_DGRAM
    · simp [hgt] at hr
    · rw [if_neg hgt] at hr
      cases hgp : g.pal_handle with
      | none =>
        rw [hgp] at hr
        simp only [Option.some.injEq] at hr
        rw [← hr]
      | some q =>
        rw [hgp] at hr
        simp only [hg, Bool.not_false, Bool.and_true] at hr
        rw [if_pos trivial] at hr
        simp only [Option.some.injEq] at hr
        rw [← hr]

/-- Witness for C7 on a concrete connected blocking handle. -/
theorem recv_nonblocking_gate_witness :
    connHandle.typ = SOCK_STREAM ∧ connHandle.pal_handle = some 7 ∧
    connHandle.nonblocking = false ∧
    recv connHandle [[0, 0]] true true (.ok [1]) = some ⟨-EINVAL, none, false, [[0, 0]]⟩ :=
  ⟨rfl, rfl, rfl,
    (recv_nonblocking_gate connHandle [[0, 0]] true (.ok [1]) 7 rfl rfl rfl).1⟩

/-- **C8.** Platform errors are mapped to POSIX errnos through a fixed total
translation: `bind` turns `PAL_ERROR_STREAMEXIST` into `-EADDRINUSE`,
`connect` turns `PAL_ERROR_CONNFAILED` into `-ENOENT`, `send` turns
`PAL_ERROR_TOOLONG` into `-EMSGSIZE`, and every other platform error falls
through to `pal_to_unix_errno`, which is total and yields a negative errno
(no panic). -/
theorem pal_error_translation (h : SockHandle) (addr : List Nat) (addrlen : Nat)
    (e : PalError) (s : List Nat) (p : Nat) (iovs : List (List Nat))
    (hu : unaddr_to_sockname addr addrlen = .ok s)
    (hnew : h.state = SockState.new)
    (ht : h.typ = SOCK_STREAM) (hp : h.pal_handle = some p) :
    (bind h addr addrlen (.error e)).ret =
      (if e = PalError.streamexist then -EADDRINUSE else pal_to_unix_errno e) ∧
    (connect h addr addrlen (.error e)).ret =
      (if e = PalError.connfailed then -ENOENT else pal_to_unix_errno e) ∧
    (send h iovs true (.error e)).map SendResult.ret =
      some (if e = PalError.toolong then -EMSGSIZE else pal_to_unix_errno e) ∧
    pal_to_unix_errno e < 0 := by
  refine ⟨?_, ?_, ?_, ?_⟩
  · unfold bind
    rw [hu]
  · unfold connect
    rw [if_neg (by rw [hnew]; intro hcon; exact hcon rfl), hu]
  · unfold send
    rw [ht, if_neg (by decide : ¬ (SOCK_STREAM = SOCK_DGRAM)), hp]
    by_cases h1 : iovs.length = 1 <;> simp [h1]
  · cases e <;> decide

/-- Witness for C8 at a concrete address, handle, the special-cased PAL error
of `bind`, and a fallthrough PAL error of `send`. -/
theorem pal_error_translation_witness :
    unaddr_to_sockname addrA 7 = .ok [97, 98] ∧
    ({ freshHandle with pal_handle := some 7 } : SockHandle).state = SockState.new ∧
    (bind { freshHandle with pal_handle := some 7 } addrA 7
        (.error PalError.streamexist)).ret = -EADDRINUSE ∧
    (send ({ freshHandle with pal_handle := some 7 }) [[1], [2]] true
        (.error PalError.other0)).map SendResult.ret =
      some (pal_to_unix_errno PalError.other0) := by
  have h1 := pal_error_translation ({ freshHandle with pal_handle := some 7 }) addrA 7
    PalError.streamexist [97, 98] 7 [[1], [2]] (by rfl) rfl rfl rfl
  have h2 := pal_error_translation ({ freshHandle with pal_handle := some 7 }) addrA 7
    PalError.other0 [97, 98] 7 [[1], [2]] (by rfl) rfl rfl rfl
  refine ⟨by rfl, rfl, ?_, ?_⟩
  · rw [h1.1]; decide
  · rw [h2.2.2.1]; decide

/-! ### Shared helper lemmas -/

lemma headD_eq_getD (l : List Nat) (d : Nat) : l.headD d = l.getD 0 d := by
  cases l <;> rfl

lemma getD_drop_eq (s : List Nat) : ∀ (n i : Nat), (s.drop n).getD i 0 = s.getD (n + i) 0 := by
  induction s with
  | nil => intro n i; rw [List.drop_nil]; simp
  | cons a t ih =>
    intro n i
    cases n with
    | zero => rw [List.drop_zero, Nat.zero_add]
    | succ m =>
      rw [List.drop_succ_cons, ih m i, Nat.succ_add, List.getD_cons_succ]

lemma getD_take_of_lt (s : List Nat) : ∀ (m i : Nat), i < m → (s.take m).getD i 0 = s.getD i 0 := by
  induction s with
  | nil => intro m i _; rw [List.take_nil]
  | cons a t ih =>
    intro m i hm
    cases m with
    | zero => exact absurd hm (Nat.not_lt_zero i)
    | succ m =>
      cases i with
      | zero => rfl
      | succ i =>
        rw [List.take_succ_cons, List.getD_cons_succ, List.getD_cons_succ,
          ih m i (Nat.lt_of_succ_lt_succ hm)]

lemma getD_replicate_zero : ∀ (n i : Nat), (List.replicate n (0 : Nat)).getD i 0 = 0 := by
  intro n
  induction n with
  | zero => intro i; rfl
  | succ n ih =>
    intro i
    rw [List.replicate_succ]
    cases i with
    | zero => rfl
    | succ i => rw [List.getD_cons_succ, ih]

lemma strnlen_nil (n : Nat) : strnlen [] n = 0 := by
  simp [strnlen]

lemma strnlen_cons (a : Nat) (s : List Nat) (n : Nat) :
    strnlen (a :: s) (n + 1) = if a ≠ 0 then strnlen s n + 1 else 0 := by
  unfold strnlen
  rw [List.take_succ_cons, List.takeWhile_cons]
  by_cases h : a = 0
  · simp [h]
  · simp [h]

lemma strnlen_le (s : List Nat) : ∀ n, strnlen s n ≤ n := by
  induction s with
  | nil => intro n; rw [strnlen_nil]; exact Nat.zero_le n
  | cons a t ih =>
    intro n
    cases n with
    | zero => exact Nat.le_refl 0
    | succ n =>
      rw [strnlen_cons]
      by_cases h : a = 0
      · simp [h]
      · simp only [h, ne_eq, not_false_eq_true, if_true]
        exact Nat.succ_le_succ (ih n)

lemma strnlen_le_length (s : List Nat) : ∀ n, strnlen s n ≤ s.length := by
  induction s with
  | nil => intro n; rw [strnlen_nil]; exact Nat.zero_le _
  | cons a t ih =>
    intro n
    cases n with
    | zero => exact Nat.zero_le _
    | succ n =>
      rw [strnlen_cons]
      by_cases h : a = 0
      · simp [h]
      · simp only [h, ne_eq, not_false_eq_true, if_true, List.length_cons]
        exact Nat.succ_le_succ (ih n)

/-- Bytes strictly before the `strnlen` cut are nonzero. -/
lemma getD_lt_strnlen_ne_zero (s : List Nat) :
    ∀ (n i : Nat), i < strnlen s n → s.getD i 0 ≠ 0 := by
  induction s with
  | nil => intro n i h; rw [strnlen_nil] at h; exact absurd h (Nat.not_lt_zero i)
  | cons a t ih =>
    intro n i h
    cases n with
    | zero => exact absurd h (Nat.not_lt_zero i)
    | succ n =>
      rw [strnlen_cons] at h
      by_cases ha : a = 0
      · simp [ha] at h
      · simp only [ha, ne_eq, not_false_eq_true, if_true] at h
        cases i with
        | zero => simpa using ha
        | succ i =>
          rw [List.getD_cons_succ]
          exact ih n i (Nat.lt_of_succ_lt_succ h)

/-- If the `strnlen` cut happens strictly inside both the window and the
string, the byte at the cut is the first null. -/
lemma getD_strnlen_eq_zero (s : List Nat) :
    ∀ n, strnlen s n < n → strnlen s n < s.length → s.getD (strnlen s n) 0 = 0 := by
  induction s with
  | nil => intro n _ h2; rw [strnlen_nil] at h2; exact absurd h2 (Nat.not_lt_zero 0)
  | cons a t ih =>
    intro n h1 h2
    cases n with
    | zero => exact absurd h1 (Nat.not_lt_zero _)
    | succ n =>
      by_cases ha : a = 0
      · rw [strnlen_cons] at h1 ⊢
        simp [ha]
      · rw [strnlen_cons] at h1 h2 ⊢
        simp only [ha, ne_eq, not_false_eq_true, if_true] at h1 h2 ⊢
        rw [List.getD_cons_succ]
        exact ih n (Nat.lt_of_succ_lt_succ h1)
          (Nat.lt_of_succ_lt_succ (by simpa using h2))

/-- Taking `(l.takeWhile q).length` elements of `l` gives exactly the
`takeWhile` prefix. -/
lemma take_length_takeWhile (l : List Nat) (q : Nat → Bool) :
    l.take (l.takeWhile q).length = l.takeWhile q :=
  (List.prefix_iff_eq_take.mp (List.takeWhile_prefix q)).symm

lemma scatterIovs_nil_data (iovs : List (List Nat)) : scatterIovs iovs [] = iovs := by
  cases iovs <;> simp [scatterIovs]

/-- `send` on a connected stream socket hands the platform write exactly the
in-order concatenation of its input buffers, in both the direct single-buffer
path and the coalescing multi-buffer path. -/
lemma send_ok (h : SockHandle) (iovs : List (List Nat)) (n : Nat) (p : Nat)
    (ht : h.typ = SOCK_STREAM) (hp : h.pal_handle = some p) :
    send h iovs true (.ok n) = some ⟨0, some n, true, iovs.flatten⟩ := by
  unfold send
  rw [ht, if_neg (by decide : ¬(SOCK_STREAM = SOCK_DGRAM)), hp]
  by_cases h1 : iovs.length = 1
  · obtain ⟨b, rfl⟩ := List.length_eq_one.mp h1
    simp
  · simp [h1]

/-! ### C9 -/

/-- **C9, counterexample.** The claim says a zero-total-length `send`/`recv`
succeeds *without invoking the platform stream's write or read operation*;
the code invokes `DkStreamWrite`/`DkStreamRead` unconditionally once a PAL
handle exists — here, with a single empty buffer on a connected socket, both
report the platform call as invoked. -/
theorem zero_len_io_counterexample :
    (send connHandle [[]] true (.ok 0)).map SendResult.palInvoked = some true ∧
    (recv connHandle [[]] false true (.ok [])).map RecvResult.palInvoked = some true := by
  exact ⟨rfl, rfl⟩

/-- **C9, amended.** A `send` or `recv` whose scatter/gather total length is
zero still invokes the platform stream operation, passing a zero-length
buffer; when the platform call succeeds it reports a byte count of zero (and
`recv` leaves the destination buffers unchanged). -/
theorem zero_len_io_amended (h : SockHandle) (iovs : List (List Nat)) (p : Nat)
    (ht : h.typ = SOCK_STREAM) (hp : h.pal_handle = some p)
    (hz : iovs.flatten.length = 0) :
    send h iovs true (.ok 0) = some ⟨0, some 0, true, []⟩ ∧
    recv h iovs false true (.ok []) = some ⟨0, some 0, true, iovs⟩ := by
  have hfl : iovs.flatten = [] := List.length_eq_zero.mp hz
  constructor
  · rw [send_ok h iovs 0 p ht hp, hfl]
  · unfold recv
    rw [ht, if_neg (by decide : ¬(SOCK_STREAM = SOCK_DGRAM)), hp]
    by_cases h1 : iovs.length = 1
    · obtain ⟨b, rfl⟩ := List.length_eq_one.mp h1
      have hb : b = [] := by simpa using hfl
      subst hb
      simp
    · simp [h1, scatterIovs_nil_data]

/-- Witness for the amended C9 on a concrete connected socket with two empty
buffers. -/
theorem zero_len_io_amended_witness :
    connHandle.typ = SOCK_STREAM ∧ connHandle.pal_handle = some 7 ∧
    ([[], []] : List (List Nat)).flatten.length = 0 ∧
    send connHandle [[], []] true (.ok 0) = some ⟨0, some 0, true, []⟩ ∧
    recv connHandle [[], []] false true (.ok []) = some ⟨0, some 0, true, [[], []]⟩ := by
  have h := zero_len_io_amended connHandle [[], []] 7 rfl rfl rfl
  exact ⟨rfl, rfl, rfl, h.1, h.2⟩

/-! ### C4 -/

/-- **C4.** `fixup_sockaddr_un_path` (called only on addresses already
validated by `unaddr_to_sockname`, hence the length preconditions matching
its assertions) leaves an abstract address (first path byte null) and its
length untouched; for a pathname address it truncates the path at its first
null byte — the kept bytes are exactly the nonzero prefix, and when the cut
is strictly inside the window the byte at the cut is a null — zeroes every
byte after the truncated path up to the end of the storage, and sets the
recorded length to exactly `offsetof(sun_path) + pathlen + 1`. -/
theorem fixup_sockaddr_un_path_normalizes (ss : List Nat) (addrlen : Nat)
    (hlen : ss.length = storageSize) (hlb : sunPathOffset < addrlen)
    (hub : addrlen ≤ sockaddrUnSize) :
    (ss.getD sunPathOffset 0 = 0 → fixup_sockaddr_un_path ss addrlen = (ss, addrlen)) ∧
    (ss.getD sunPathOffset 0 ≠ 0 →
      (fixup_sockaddr_un_path ss addrlen).2 =
        sunPathOffset + strnlen (ss.drop sunPathOffset) (addrlen - sunPathOffset) + 1 ∧
      (fixup_sockaddr_un_path ss addrlen).1.length = storageSize ∧
      (∀ i, i < sunPathOffset + strnlen (ss.drop sunPathOffset) (addrlen - sunPathOffset) →
        (fixup_sockaddr_un_path ss addrlen).1.getD i 0 = ss.getD i 0) ∧
      (∀ i, i < strnlen (ss.drop sunPathOffset) (addrlen - sunPathOffset) →
        ss.getD (sunPathOffset + i) 0 ≠ 0) ∧
      (strnlen (ss.drop sunPathOffset) (addrlen - sunPathOffset) < addrlen - sunPathOffset →
        ss.getD (sunPathOffset + strnlen (ss.drop sunPathOffset) (addrlen - sunPathOffset)) 0
          = 0) ∧
      (∀ i, sunPathOffset + strnlen (ss.drop sunPathOffset) (addrlen - sunPathOffset) ≤ i →
        i < storageSize → (fixup_sockaddr_un_path ss addrlen).1.getD i 0 = 0)) := by
  have hhead : (ss.drop sunPathOffset).headD 0 = ss.getD sunPathOffset 0 := by
    rw [headD_eq_getD, getD_drop_eq, Nat.add_zero]
  constructor
  · intro h0
    unfold fixup_sockaddr_un_path
    rw [if_pos (by rw [hhead]; exact h0)]
  · intro h0
    set pl := strnlen (ss.drop sunPathOffset) (addrlen - sunPathOffset) with hpl
    have hple : pl ≤ addrlen - sunPathOffset := strnlen_le _ _
    have hplen : sunPathOffset + pl ≤ ss.length := by
      rw [hlen]
      unfold sunPathOffset at hple hlb ⊢
      unfold sockaddrUnSize at hub
      unfold storageSize
      omega
    have hfix : fixup_sockaddr_un_path ss addrlen =
        (ss.take (sunPathOffset + pl) ++
           List.replicate (storageSize - sunPathOffset - pl) 0,
         sunPathOffset + pl + 1) := by
      unfold fixup_sockaddr_un_path
      rw [if_neg (by rw [hhead]; exact h0)]
    have htklen : (ss.take (sunPathOffset + pl)).length = sunPathOffset + pl := by
      rw [List.length_take]
      exact Nat.min_eq_left hplen
    refine ⟨by rw [hfix], ?_, ?_, ?_, ?_, ?_⟩
    · rw [hfix]
      simp only [List.length_append, List.length_replicate, htklen]
      unfold sunPathOffset at hple hlb htklen ⊢
      unfold sockaddrUnSize at hub
      unfold storageSize
      omega
    · intro i hi
      rw [hfix]
      simp only
      rw [List.getD_append _ _ _ _ (by rw [htklen]; exact hi)]
      exact getD_take_of_lt ss _ i hi
    · intro i hi
      have := getD_lt_strnlen_ne_zero (ss.drop sunPathOffset) (addrlen - sunPathOffset) i hi
      rwa [getD_drop_eq] at this
    · intro hcut
      have h2 : pl < (ss.drop sunPathOffset).length := by
        rw [List.length_drop, hlen]
        unfold sunPathOffset at hcut ⊢
        unfold sockaddrUnSize at hub
        unfold storageSize
        omega
      have := getD_strnlen_eq_zero (ss.drop sunPathOffset) (addrlen - sunPathOffset) hcut h2
      rwa [getD_drop_eq] at this
    · intro i hi1 hi2
      rw [hfix]
      simp only
      rw [List.getD_append_right _ _ _ _ (by rw [htklen]; exact hi1)]
      exact getD_replicate_zero _ _

set_option maxRecDepth 4000 in
/-- Witness for C4: a concrete 128-byte storage holding the pathname
`"a" ++ "\0"` plus garbage, with recorded length 7; and the same storage with
a leading-null (abstract) path. -/
theorem fixup_sockaddr_un_path_normalizes_witness :
    (0 :: 0 :: 0 :: 98 :: List.replicate 124 5).length = storageSize ∧
    sunPathOffset < 7 ∧ (7 : Nat) ≤ sockaddrUnSize ∧
    fixup_sockaddr_un_path (0 :: 0 :: 0 :: 98 :: List.replicate 124 5) 7 =
      (0 :: 0 :: 0 :: 98 :: List.replicate 124 5, 7) ∧
    (fixup_sockaddr_un_path (0 :: 0 :: 97 :: 0 :: List.replicate 124 5) 7).2 = 4 := by
  have habs := (fixup_sockaddr_un_path_normalizes (0 :: 0 :: 0 :: 98 :: List.replicate 124 5) 7
    (by decide) (by decide) (by decide)).1 (by decide)
  have hpath := ((fixup_sockaddr_un_path_normalizes (0 :: 0 :: 97 :: 0 :: List.replicate 124 5) 7
    (by decide) (by decide) (by decide)).2 (by decide)).1
  refine ⟨by decide, by decide, by decide, habs, ?_⟩
  rw [hpath]
  decide

/-! ### C1 -/

/-- On a valid pathname address (`AF_UNIX` family, long enough, first path
byte nonzero), `unaddr_to_sockname` hashes exactly the nonzero prefix of the
path window — the path truncated at its first null byte. -/
lemma unaddr_pathname (addr : List Nat) (l : Nat)
    (hf : sunFamily addr = AF_UNIX) (hl : sunPathOffset + 1 ≤ min l sockaddrUnSize)
    (hp : (sunPathSlice addr l).headD 0 ≠ 0) :
    unaddr_to_sockname addr l =
      .ok ((sunPathSlice addr l).takeWhile (fun b => b ≠ 0)) := by
  unfold unaddr_to_sockname
  rw [if_neg (Nat.not_lt.mpr hl), if_neg (fun hcon => hcon hf)]
  unfold sunPathSlice at hp ⊢
  dsimp only
  rw [if_pos hp]
  have hlenle : ((addr.drop sunPathOffset).take (min l sockaddrUnSize - sunPathOffset)).length
      ≤ min l sockaddrUnSize - sunPathOffset := by
    rw [List.length_take]
    exact Nat.min_le_left _ _
  unfold strnlen
  rw [List.take_of_length_le hlenle, take_length_takeWhile]

/-- On a valid abstract address (first path byte null), `unaddr_to_sockname`
hashes the whole remaining window, leading null included. -/
lemma unaddr_abstract (addr : List Nat) (l : Nat)
    (hf : sunFamily addr = AF_UNIX) (hl : sunPathOffset + 1 ≤ min l sockaddrUnSize)
    (hp : (sunPathSlice addr l).headD 0 = 0) :
    unaddr_to_sockname addr l = .ok (sunPathSlice addr l) := by
  unfold unaddr_to_sockname
  rw [if_neg (Nat.not_lt.mpr hl), if_neg (fun hcon => hcon hf)]
  unfold sunPathSlice at hp ⊢
  dsimp only
  rw [if_neg (fun hcon => hcon hp)]
  have hlenle : ((addr.drop sunPathOffset).take (min l sockaddrUnSize - sunPathOffset)).length
      ≤ min l sockaddrUnSize - sunPathOffset := by
    rw [List.length_take]
    exact Nat.min_le_left _ _
  rw [List.take_of_length_le hlenle]

/-- **C1.** Two pathname address buffers carrying the same path up to (and
including) the first null byte — differing only in bytes after that null, in
trailing garbage, or in declared length — both succeed in
`unaddr_to_sockname` with the same hashed byte sequence, hence the same
derived stream name for any digest; and an abstract address (first path byte
null) hashes the entire remaining window as opaque bytes, leading null
included. -/
theorem unaddr_same_logical_path_same_name (a1 a2 : List Nat) (l1 l2 : Nat)
    (hf1 : sunFamily a1 = AF_UNIX) (hf2 : sunFamily a2 = AF_UNIX)
    (hl1 : sunPathOffset + 1 ≤ min l1 sockaddrUnSize)
    (hl2 : sunPathOffset + 1 ≤ min l2 sockaddrUnSize)
    (hp1 : (sunPathSlice a1 l1).headD 0 ≠ 0)
    (hp2 : (sunPathSlice a2 l2).headD 0 ≠ 0)
    (_hn1 : 0 ∈ sunPathSlice a1 l1) (_hn2 : 0 ∈ sunPathSlice a2 l2)
    (hpref : (sunPathSlice a1 l1).takeWhile (fun b => b ≠ 0) =
             (sunPathSlice a2 l2).takeWhile (fun b => b ≠ 0)) :
    (unaddr_to_sockname a1 l1 = unaddr_to_sockname a2 l2 ∧
      unaddr_to_sockname a1 l1 =
        .ok ((sunPathSlice a1 l1).takeWhile (fun b => b ≠ 0))) ∧
    (∀ digest, sockNameOf digest a1 l1 = sockNameOf digest a2 l2) ∧
    (∀ a l, sunFamily a = AF_UNIX → sunPathOffset + 1 ≤ min l sockaddrUnSize →
      (sunPathSlice a l).headD 0 = 0 →
      unaddr_to_sockname a l = .ok (sunPathSlice a l)) := by
  have h1 := unaddr_pathname a1 l1 hf1 hl1 hp1
  have h2 := unaddr_pathname a2 l2 hf2 hl2 hp2
  have hsame : unaddr_to_sockname a1 l1 = unaddr_to_sockname a2 l2 := by
    rw [h1, h2, hpref]
  exact ⟨⟨hsame, h1⟩,
    fun digest => by unfold sockNameOf; rw [hsame],
    fun a l hf hl hp => unaddr_abstract a l hf hl hp⟩

/-- Witness for C1: `addrA` and `addrB` share the logical path `"ab"` but
differ in the garbage after the terminating null and in length. -/
theorem unaddr_same_logical_path_same_name_witness :
    sunFamily addrA = AF_UNIX ∧ sunFamily addrB = AF_UNIX ∧
    (sunPathSlice addrA 7).headD 0 ≠ 0 ∧ (sunPathSlice addrB 6).headD 0 ≠ 0 ∧
    0 ∈ sunPathSlice addrA 7 ∧ 0 ∈ sunPathSlice addrB 6 ∧
    (sunPathSlice addrA 7).takeWhile (fun b => b ≠ 0) =
      (sunPathSlice addrB 6).takeWhile (fun b => b ≠ 0) ∧
    unaddr_to_sockname addrA 7 = unaddr_to_sockname addrB 6 ∧
    unaddr_to_sockname addrA 7 = .ok [97, 98] ∧
    unaddr_to_sockname [1, 0, 0, 42] 4 = .ok [0, 42] := by
  have h := unaddr_same_logical_path_same_name addrA addrB 7 6
    (by decide) (by decide) (by decide) (by decide) (by decide) (by decide)
    (by decide) (by decide) (by decide)
  refine ⟨by decide, by decide, by decide, by decide, by decide, by decide, by decide,
    h.1.1, ?_, ?_⟩
  · rw [h.1.2]; rfl
  · exact h.2.2 [1, 0, 0, 42] 4 (by decide) (by decide) (by decide)

/-! ### C2 -/

/-- `recv` on a connected stream socket with enough destination capacity
returns the platform's bytes scattered over the buffers in order, in both
the direct single-buffer path and the backing-buffer multi-buffer path. -/
lemma recv_ok (h : SockHandle) (iovs : List (List Nat)) (data : List Nat) (p : Nat)
    (ht : h.typ = SOCK_STREAM) (hp : h.pal_handle = some p)
    (hcap : data.length ≤ (iovs.map List.length).sum) :
    recv h iovs false true (.ok data) =
      some ⟨0, some data.length, true, scatterIovs iovs data⟩ := by
  unfold recv
  rw [ht, if_neg (by decide : ¬(SOCK_STREAM = SOCK_DGRAM)), hp]
  rw [Bool.false_and, if_neg (by decide : ¬(false = true))]
  by_cases h1 : iovs.length = 1
  · obtain ⟨b, rfl⟩ := List.length_eq_one.mp h1
    simp only [List.map_cons, List.map_nil, List.sum_cons, List.sum_nil,
      Nat.add_zero] at hcap
    rw [if_pos rfl]
    by_cases hd : data = []
    · subst hd
      simp [scatterIovs]
    · have hsc : scatterIovs [b] data =
          [data.take (min data.length b.length) ++ b.drop (min data.length b.length)] := by
        rw [scatterIovs, if_neg (by simpa using hd)]
        rfl
      rw [hsc, Nat.min_eq_left hcap, List.take_length]
      rfl
  · rw [if_neg h1, if_pos rfl]

/-- Scattering `data` over buffers with enough total capacity and reading the
buffers back in order reproduces `data` exactly. -/
lemma scatterIovs_flatten_take (iovs : List (List Nat)) : ∀ (data : List Nat),
    data.length ≤ (iovs.map List.length).sum →
    ((scatterIovs iovs data).flatten).take data.length = data := by
  induction iovs with
  | nil =>
    intro data hcap
    simp only [List.map_nil, List.sum_nil, Nat.le_zero] at hcap
    rw [List.eq_nil_of_length_eq_zero hcap]
    rfl
  | cons iov rest ih =>
    intro data hcap
    by_cases hd : data = []
    · subst hd
      simp
    · rw [scatterIovs, if_neg (by simpa using hd), List.flatten_cons]
      simp only [List.map_cons, List.sum_cons] at hcap
      by_cases hle : data.length ≤ iov.length
      · rw [Nat.min_eq_left hle, List.take_length, List.drop_length,
          scatterIovs_nil_data, List.append_assoc, List.take_append_eq_append_take,
          List.take_length, Nat.sub_self, List.take_zero, List.append_nil]
      · have hlt : iov.length < data.length := Nat.lt_of_not_le hle
        rw [Nat.min_eq_right hlt.le, List.drop_length, List.append_nil,
          List.take_append_eq_append_take]
        have htk : (data.take iov.length).length = iov.length := by
          rw [List.length_take]
          exact Nat.min_eq_left hlt.le
        rw [List.take_of_length_le (by rw [htk]; exact hlt.le), htk]
        have hih := ih (data.drop iov.length)
          (by rw [List.length_drop]; omega)
        rw [List.length_drop] at hih
        rw [hih, List.take_append_drop]

/-- **C2.** Round trip through a connected pair: `send` coalesces its input
buffers into the single platform write in order (the gathered bytes are the
concatenation of the buffers), and `recv`, given those very bytes from the
platform and destinations with enough total capacity, scatters them across
its buffers in order — reading the destination buffers back in order yields
exactly the sent byte sequence, whatever the segmentation on either side. -/
theorem send_recv_round_trip (hs hr : SockHandle) (src dst : List (List Nat))
    (ps pr n : Nat)
    (hts : hs.typ = SOCK_STREAM) (hps : hs.pal_handle = some ps)
    (htr : hr.typ = SOCK_STREAM) (hpr : hr.pal_handle = some pr)
    (hcap : src.flatten.length ≤ (dst.map List.length).sum) :
    send hs src true (.ok n) = some ⟨0, some n, true, src.flatten⟩ ∧
    recv hr dst false true (.ok src.flatten) =
      some ⟨0, some src.flatten.length, true, scatterIovs dst src.flatten⟩ ∧
    ((scatterIovs dst src.flatten).flatten).take src.flatten.length = src.flatten :=
  ⟨send_ok hs src n ps hts hps,
   recv_ok hr dst src.flatten pr htr hpr hcap,
   scatterIovs_flatten_take dst src.flatten hcap⟩

/-- Witness for C2: the bytes `[1, 2, 3, 4, 5]` split as `[1, 2], [3], [4, 5]`
on the sender and gathered into buffers of capacity `1 + 3 + 2` on the
receiver. -/
theorem send_recv_round_trip_witness :
    connHandle.typ = SOCK_STREAM ∧ connHandle.pal_handle = some 7 ∧
    ([[1, 2], [3], [4, 5]] : List (List Nat)).flatten.length ≤
      (([[9], [9, 9, 9], [9, 9]] : List (List Nat)).map List.length).sum ∧
    send connHandle [[1, 2], [3], [4, 5]] true (.ok 5) =
      some ⟨0, some 5, true, [1, 2, 3, 4, 5]⟩ ∧
    recv connHandle [[9], [9, 9, 9], [9, 9]] false true (.ok [1, 2, 3, 4, 5]) =
      some ⟨0, some 5, true, [[1], [2, 3, 4], [5, 9]]⟩ ∧
    ([[1], [2, 3, 4], [5, 9]] : List (List Nat)).flatten.take 5 = [1, 2, 3, 4, 5] := by
  have h := send_recv_round_trip connHandle connHandle [[1, 2], [3], [4, 5]]
    [[9], [9, 9, 9], [9, 9]] 7 7 5 rfl rfl rfl rfl (by decide)
  refine ⟨rfl, rfl, by decide, ?_, ?_, by decide⟩
  · have := h.1
    simpa using this
  · have := h.2.1
    simpa using this

/-! ### C5 -/

/-- `palInv` holds of a conditional state bump to a non-`NEW` state. -/
lemma palInv_ite_state (c : Prop) [Decidable c] (h : SockHandle) (st : SockState)
    (hst : st ≠ SockState.new) (hI : palInv h) :
    palInv (if c then { h with state := st } else h) := by
  split
  · intro hcon
    exact absurd hcon hst
  · exact hI

lemma pal_ite_state (c : Prop) [Decidable c] (h : SockHandle) (st : SockState) :
    (if c then { h with state := st } else h).pal_handle = h.pal_handle := by
  split <;> rfl

/-- One dispatched operation preserves the `NEW ⇒ no PAL handle` invariant
and never changes an already-set PAL handle. -/
lemma sysStep_palInv (h : SockHandle) (op : SockOp) (hI : palInv h) :
    palInv (sysStep h op) ∧
    ∀ p, h.pal_handle = some p → (sysStep h op).pal_handle = some p := by
  cases op with
  | bindOp addr len po =>
    simp only [sysStep]
    by_cases hst : h.state = SockState.new
    · rw [if_pos hst]
      have hpal : h.pal_handle = none := hI hst
      constructor
      · unfold bind
        cases unaddr_to_sockname addr len with
        | error e => exact palInv_ite_state _ h SockState.bound (by decide) hI
        | ok s =>
          cases po with
          | error e2 => exact palInv_ite_state _ h SockState.bound (by decide) hI
          | ok p =>
            dsimp only
            rw [if_pos rfl]
            exact fun hcon => nomatch hcon
      · intro p hp
        rw [hpal] at hp
        exact Option.noConfusion hp
    · rw [if_neg hst]
      exact ⟨hI, fun p hp => hp⟩
  | listenOp b =>
    simp only [sysStep]
    by_cases hst : h.state = SockState.bound ∨ h.state = SockState.listening
    · rw [if_pos hst]
      refine ⟨palInv_ite_state _ h SockState.listening (by decide) hI, fun p hp => ?_⟩
      rw [pal_ite_state]
      exact hp
    · rw [if_neg hst]
      exact ⟨hI, fun p hp => hp⟩
  | connectOp addr len po =>
    simp only [sysStep]
    unfold connect
    by_cases hst : h.state = SockState.new
    · rw [if_neg (not_not_intro hst)]
      have hpal : h.pal_handle = none := hI hst
      constructor
      · cases unaddr_to_sockname addr len with
        | error e => exact palInv_ite_state _ h SockState.connected (by decide) hI
        | ok s =>
          cases po with
          | error e2 => exact palInv_ite_state _ h SockState.connected (by decide) hI
          | ok p =>
            dsimp only
            rw [if_pos rfl]
            exact fun hcon => nomatch hcon
      · intro p hp
        rw [hpal] at hp
        exact Option.noConfusion hp
    · rw [if_pos hst]
      refine ⟨palInv_ite_state _ h SockState.connected (by decide) hI, fun p hp => ?_⟩
      rw [pal_ite_state]
      exact hp
  | acceptOp nb pw a lk => exact ⟨hI, fun p hp => hp⟩
  | sendOp iovs a pw => exact ⟨hI, fun p hp => hp⟩
  | recvOp iovs nb a pr => exact ⟨hI, fun p hp => hp⟩

/-- The invariant and a set PAL handle persist through any operation
sequence. -/
lemma runOps_invariant (ops : List SockOp) : ∀ (h : SockHandle), palInv h →
    palInv (runOps h ops) ∧
    ∀ p, h.pal_handle = some p → (runOps h ops).pal_handle = some p := by
  induction ops with
  | nil => exact fun h hI => ⟨hI, fun p hp => hp⟩
  | cons op ops ih =>
    intro h hI
    have hs := sysStep_palInv h op hI
    have hr := ih (sysStep h op) hs.1
    exact ⟨hr.1, fun p hp => hr.2 p (hs.2 p hp)⟩

lemma runOps_append (l1 l2 : List SockOp) : ∀ (h : SockHandle),
    runOps h (l1 ++ l2) = runOps (runOps h l1) l2 := by
  induction l1 with
  | nil => exact fun h => rfl
  | cons op l1 ih =>
    intro h
    rw [List.cons_append]
    exact ih (sysStep h op)

/-- **C5.** A socket's PAL handle starts `null` after `create`, and along any
sequence of dispatched backend operations it transitions at most once from
`null` to a non-null value and never changes afterwards: once some prefix of
the sequence has set it to `p`, every extension of that prefix leaves it at
`p`. -/
theorem pal_handle_set_at_most_once (h h0 : SockHandle) (ops1 ops2 : List SockOp)
    (p : Nat) (_hnew : h.state = SockState.new) (hc : create h = .ok h0)
    (hp : (runOps h0 ops1).pal_handle = some p) :
    h0.pal_handle = none ∧ (runOps h0 (ops1 ++ ops2)).pal_handle = some p := by
  have hh0 : h0 = { h with pal_handle := none } := by
    unfold create at hc
    by_cases h1 : h.typ = SOCK_DGRAM
    · rw [if_pos h1] at hc
      exact Except.noConfusion hc
    · rw [if_neg h1] at hc
      by_cases h2 : h.protocol ≠ 0
      · rw [if_pos h2] at hc
        exact Except.noConfusion hc
      · rw [if_neg h2] at hc
        exact (Except.ok.inj hc).symm
  have hI0 : palInv h0 := fun _ => by rw [hh0]
  have h1 := runOps_invariant ops1 h0 hI0
  refine ⟨by rw [hh0], ?_⟩
  rw [runOps_append]
  exact (runOps_invariant ops2 (runOps h0 ops1) h1.1).2 p hp

set_option maxRecDepth 8000 in
/-- Witness for C5: a fresh socket, bound successfully (PAL handle 3), then
listened on and read from — the PAL handle stays 3. -/
theorem pal_handle_set_at_most_once_witness :
    freshHandle.state = SockState.new ∧
    create freshHandle = .ok freshHandle ∧
    (runOps freshHandle [SockOp.bindOp addrA 7 (.ok 3)]).pal_handle = some 3 ∧
    (runOps freshHandle ([SockOp.bindOp addrA 7 (.ok 3)] ++
      [SockOp.listenOp 1, SockOp.recvOp [[0]] false true (.ok [9])])).pal_handle =
        some 3 := by
  refine ⟨rfl, rfl, by decide, ?_⟩
  exact (pal_handle_set_at_most_once freshHandle freshHandle
    [SockOp.bindOp addrA 7 (.ok 3)]
    [SockOp.listenOp 1, SockOp.recvOp [[0]] false true (.ok [9])] 3
    rfl rfl (by decide)).2

end GramineUnix
